import Mathlib

/-!
Verification development for the file-cleanup / structure-analysis utility of
this repository.  The definitions below are a shallow embedding of the code in
`src/project-cleanup.cjs` (configuration loading, the classifier in `utils`,
`scanDirectory`, `handleFileDeletion`/`handleDirectoryDeletion`,
`deleteDirectory`, `cleanupOldBackups`, `runCleanup`) and of the duplicate
detector of the structure-analysis script (`analyzeDirectory`, lines 483–500 of
its source).  Timestamps are modelled as integer milliseconds since the Unix
epoch; the day arithmetic of the source (`/ (1000*60*60*24)` on millisecond
differences, compared against day thresholds) is carried out in `ℚ` exactly as
written.  Paths use `/` as separator, as produced by `path.join` on posix.
-/

namespace Cleanup

/-! ### Path helpers (shallow embedding of Node's `path` module as used here)

The scripts only ever call `path.basename`, `path.extname` and `path.join` on
paths whose final component contains no separator, so we model the posix
behaviour on such paths.
-/

/-- `path.join(dirPath, item)` for a plain entry name: joins with `/`. -/
def joinPath (d n : String) : String := d ++ "/" ++ n

/-- `path.basename`: the final `/`-separated component of a path. -/
def basename (p : String) : String :=
  String.mk ((p.toList.reverse.takeWhile (fun c => c ≠ '/')).reverse)

/-- Index of the last `'.'` in a character list, if any. -/
def lastDotIdx (cs : List Char) : Option Nat :=
  match cs.reverse.findIdx? (fun c => c = '.') with
  | none => none
  | some j => some (cs.length - 1 - j)

/-- `path.extname`: the suffix of the basename starting at its last `'.'`;
empty when there is no dot or the only dot is the leading character of the
basename (hidden files such as `.env` have no extension). -/
def extname (p : String) : String :=
  let cs := (basename p).toList
  match lastDotIdx cs with
  | none => ""
  | some 0 => ""
  | some i => String.mk (cs.drop i)

/-- `String.prototype.toLowerCase()` restricted to ASCII, which is the only
alphabet appearing in the configured extension sets and scanned names. -/
def toLowerAscii (s : String) : String := String.mk (s.toList.map Char.toLower)

/-- `a.endsWith(b)` on strings, via character lists. -/
def endsWithStr (s suffix : String) : Bool := suffix.toList.isSuffixOf s.toList

/-- `a.startsWith(b)` on strings, via character lists. -/
def startsWithStr (s pre : String) : Bool := pre.toList.isPrefixOf s.toList

/-- Auxiliary: does `sub` occur as a contiguous run inside `s`? -/
def isInfixL (sub : List Char) : List Char → Bool
  | [] => sub.isEmpty
  | c :: rest => sub.isPrefixOf (c :: rest) || isInfixL sub rest

/-- substring containment, via character lists. -/
def containsStr (s sub : String) : Bool := isInfixL sub.toList s.toList

/-! ### Configuration (`getDefaultConfig` / `cleanup-config.json`)

The two are field-for-field identical in the repository.  Regular-expression
patterns are embedded as boolean predicates on the basename; each predicate
below implements exactly the matching semantics of the corresponding
(unanchored-at-the-start) pattern string of the source.
-/

/-- Options block of the configuration. -/
structure CleanupOptions where
  promptBeforeDeletion : Bool
  removeEmptyDirectories : Bool
  removeEmptyFrontend : Bool
  createBackups : Bool

/-- The configuration record used by the cleanup script.  `essentialPatterns`
are the compiled regular expressions, embedded as predicates on strings. -/
structure Config where
  essentialPatterns : List (String → Bool)
  essentialDirectories : List String
  artifactExtensions : List String
  accessThresholdDays : ℚ
  backupRetentionDays : ℚ
  options : CleanupOptions

/-- Pattern `^\.env`. -/
def patEnv : String → Bool := fun n => startsWithStr n ".env"

/-- Pattern `config\.(js|ts|json)$`. -/
def patConfig : String → Bool := fun n =>
  endsWithStr n "config.js" || endsWithStr n "config.ts" || endsWithStr n "config.json"

/-- Pattern `package(-lock)?\.json$`. -/
def patPackage : String → Bool := fun n =>
  endsWithStr n "package.json" || endsWithStr n "package-lock.json"

/-- Pattern `tsconfig.*\.json$`: an occurrence of `tsconfig` followed
(possibly after other characters) by a terminal `.json`.  Since none of the
characters of `.json` is `g`, any occurrence of `tsconfig` in a string ending
in `.json` ends before that suffix, so this is equivalent to containment plus
the suffix test. -/
def patTsconfig : String → Bool := fun n =>
  containsStr n "tsconfig" && endsWithStr n ".json"

/-- Pattern `README\.md$`. -/
def patReadme : String → Bool := fun n => endsWithStr n "README.md"

/-- Pattern `\.gitignore$`. -/
def patGitignore : String → Bool := fun n => endsWithStr n ".gitignore"

/-- Pattern `server\.js$`. -/
def patServer : String → Bool := fun n => endsWithStr n "server.js"

/-- Pattern `vite\.config\.ts$`. -/
def patVite : String → Bool := fun n => endsWithStr n "vite.config.ts"

/-- Pattern `tailwind\.config\.js$`. -/
def patTailwind : String → Bool := fun n => endsWithStr n "tailwind.config.js"

/-- Pattern `postcss\.config\.js$`. -/
def patPostcss : String → Bool := fun n => endsWithStr n "postcss.config.js"

/-- Pattern `restart\.ps1$`. -/
def patRestart : String → Bool := fun n => endsWithStr n "restart.ps1"

/-- `getDefaultConfig()` of `project-cleanup.cjs`, which coincides with the
shipped `cleanup-config.json` (the `directories` map is kept separately as the
scan roots of the filesystem model). -/
def getDefaultConfig : Config where
  essentialPatterns :=
    [patEnv, patConfig, patPackage, patTsconfig, patReadme, patGitignore,
     patServer, patVite, patTailwind, patPostcss, patRestart]
  essentialDirectories :=
    ["node_modules", "src", "backend", "public", "controllers", "models",
     "routes", "config", "components", "contexts", "pages", "services",
     "hooks", "utils", "lib"]
  artifactExtensions := [".log", ".tmp", ".temp", ".DS_Store", ".bak", "Thumbs.db"]
  accessThresholdDays := 30
  backupRetentionDays := 14
  options :=
    { promptBeforeDeletion := true
      removeEmptyDirectories := true
      removeEmptyFrontend := true
      createBackups := true }

/-! ### The classifier (`utils` of `project-cleanup.cjs`) -/

/-- `utils.isEssentialFile`: the basename matches some essential pattern. -/
def isEssentialFile (cfg : Config) (filePath : String) : Bool :=
  cfg.essentialPatterns.any (fun pattern => pattern (basename filePath))

/-- `utils.isEssentialDirectory`: the basename is in the essential set. -/
def isEssentialDirectory (cfg : Config) (dirPath : String) : Bool :=
  cfg.essentialDirectories.contains (basename dirPath)

/-- `utils.isBuildArtifact`: the lowercased extension is in the artifact set
(the configured entries are compared verbatim). -/
def isBuildArtifact (cfg : Config) (filePath : String) : Bool :=
  cfg.artifactExtensions.contains (toLowerAscii (extname filePath))

/-- Milliseconds per day, the divisor `1000 * 60 * 60 * 24` of the source. -/
def msPerDay : ℚ := 1000 * 60 * 60 * 24

/-- `utils.isRecentlyAccessed` for a file whose metadata is readable: the
age in days is strictly below the threshold.  (On a metadata read failure the
source returns `true`; failed entries are modelled at the traversal level,
where the scan's own `statSync` call fails first.) -/
def isRecentlyAccessed (cfg : Config) (now atime : Int) : Bool :=
  ((now - atime : ℚ) / msPerDay) < cfg.accessThresholdDays

example : isEssentialFile getDefaultConfig "src/vite.config.ts" = true := by decide
example : isEssentialFile getDefaultConfig "src/debug.log" = false := by decide
example : isBuildArtifact getDefaultConfig "src/debug.log" = true := by decide
example : isBuildArtifact getDefaultConfig "src/a.DS_Store" = false := by decide
example : extname "Thumbs.db" = ".db" := by decide
example : isRecentlyAccessed getDefaultConfig (30 * 86400000) 0 = false := by
  norm_num [isRecentlyAccessed, msPerDay, getDefaultConfig]
example : isRecentlyAccessed getDefaultConfig (30 * 86400000 - 1) 0 = true := by
  norm_num [isRecentlyAccessed, msPerDay, getDefaultConfig]

/-! ### Dates and the backup retention sweep (`utils.cleanupOldBackups`)

Backup partitions are directories named `YYYY-MM-DD` (the tool creates them
from `new Date().toISOString().split('T')[0]`).  The sweep parses each entry
name with `new Date(name)`; we model that parse for the ISO calendar-date
format, every other name yielding an invalid date (`none`), which the source
skips via its `isNaN` guard.
-/

/-- Gregorian leap-year test. -/
def isLeapYear (y : Nat) : Bool := (y % 4 == 0 && y % 100 != 0) || y % 400 == 0

/-- Number of days in month `m` (1-based) of year `y`. -/
def daysInMonth (y m : Nat) : Nat :=
  if m = 2 then (if isLeapYear y then 29 else 28)
  else if m = 4 ∨ m = 6 ∨ m = 9 ∨ m = 11 then 30
  else 31

/-- Days in the months of year `y` strictly before month `m`. -/
def daysBeforeMonth (y m : Nat) : Nat :=
  ((List.range (m - 1)).map (fun i => daysInMonth y (i + 1))).sum

/-- Days from 1970-01-01 (the epoch) to the civil date `y-m-d`. -/
def daysSinceEpoch (y m d : Nat) : Nat :=
  ((List.range (y - 1970)).map (fun i => if isLeapYear (1970 + i) then 366 else 365)).sum
    + daysBeforeMonth y m + (d - 1)

/-- Value of a decimal digit character. -/
def digitVal? (c : Char) : Option Nat :=
  if c.isDigit then some (c.toNat - 48) else none

/-- Decimal number denoted by a digit list (`none` on a non-digit). -/
def parseNatDigits (cs : List Char) : Option Nat :=
  cs.foldl
    (fun acc c =>
      match acc, digitVal? c with
      | some n, some d => some (n * 10 + d)
      | _, _ => none)
    (some 0)

/-- `new Date(name).getTime()` for a backup-partition name: UTC milliseconds
for a valid `YYYY-MM-DD` (epoch-or-later) calendar date, `none` (an invalid
date, `isNaN` in the source) otherwise. -/
def parseDateMs (s : String) : Option Int :=
  match s.toList with
  | [y1, y2, y3, y4, '-', m1, m2, '-', d1, d2] =>
    match parseNatDigits [y1, y2, y3, y4], parseNatDigits [m1, m2],
        parseNatDigits [d1, d2] with
    | some y, some m, some d =>
      if 1970 ≤ y ∧ 1 ≤ m ∧ m ≤ 12 ∧ 1 ≤ d ∧ d ≤ daysInMonth y m then
        some ((daysSinceEpoch y m d : Int) * 86400000)
      else none
    | _, _, _ => none
  | _ => none

/-- The removal condition of the sweep: the name parses as a date and
`(now - date) / msPerDay > backupRetentionDays` (strict, as in the source). -/
def shouldRemoveBackup (cfg : Config) (now : Int) (name : String) : Bool :=
  match parseDateMs name with
  | none => false
  | some t => cfg.backupRetentionDays < ((now - t : ℚ) / msPerDay)

/-- `utils.cleanupOldBackups`, as the resulting list of partition names under
the backup root: a no-op when backups are disabled; otherwise each date-named
partition strictly older than the retention window is removed
(`fs.rmdirSync(..., recursive)` in the source, modelled as dropping the
partition), every other entry is kept. -/
def cleanupOldBackups (cfg : Config) (now : Int) (partitions : List String) :
    List String :=
  if cfg.options.createBackups then
    partitions.filter (fun name => ! shouldRemoveBackup cfg now name)
  else partitions

example : parseDateMs "2024-01-01" = some (19723 * 86400000) := by decide
example : parseDateMs "2024-01-20" = some (19742 * 86400000) := by decide
example : parseDateMs "not-a-date" = none := by decide
example : parseDateMs "2024-02-30" = none := by decide

/-! ### The filesystem model and the traversal (`scanDirectory`)

A directory's contents are a list of entries.  A `file` entry carries its
last-access time (milliseconds).  A `statFailure` entry stands for an entry on
which `fs.statSync(itemPath)` (line 272 of the source) throws; the `try/catch`
wrapping the whole body of `scanDirectory` then logs
`Error scanning directory <dirPath>` and returns from this invocation.

The traversal is modelled state-passing: it returns the log events it emits
and the directory contents as they stand afterwards.  In delete mode with
`promptBeforeDeletion` set, `rl.question` merely schedules an asynchronous
callback, so the synchronous scan performs no mutation for that item; this is
modelled by a `promptRequest` event.  With prompting disabled, `deleteFile`
backs the file up and unlinks it (modelled as dropping the entry and emitting
a `deleted` event; the backup copy and the per-entry caught unlink errors do
not affect the scanned tree).
-/

mutual
/-- One directory entry as seen by the traversal. -/
inductive FSEntry : Type where
  | file (name : String) (atime : Int) : FSEntry
  | dir (name : String) (children : FSList) : FSEntry
  | statFailure (name : String) : FSEntry
/-- Contents of a directory, in `readdirSync` order. -/
inductive FSList : Type where
  | nil : FSList
  | cons (e : FSEntry) (rest : FSList) : FSList
end

/-- Emptiness of directory contents (`readdirSync(dirPath).length === 0`). -/
def FSList.isEmpty : FSList → Bool
  | .nil => true
  | .cons _ _ => false

/-- Console/log events emitted by the cleanup run. -/
inductive Event : Type where
  | skippedEssential (path : String) : Event
  | proposal (path : String) (reason : String) : Event
  | promptRequest (path : String) (reason : String) : Event
  | deleted (path : String) (reason : String) : Event
  | errorLog (msg : String) : Event
deriving DecidableEq

/-- `handleFileDeletion(filePath, reason, options)`: in dry-run mode, log the
proposal only; otherwise prompt (asynchronously — no synchronous mutation) or
delete immediately.  Returns the events and whether the file is removed now. -/
def handleFileDeletion (cfg : Config) (path reason : String) (dryRun : Bool) :
    List Event × Bool :=
  if dryRun then ([.proposal path reason], false)
  else if cfg.options.promptBeforeDeletion then ([.promptRequest path reason], false)
  else ([.deleted path reason], true)

/-- `handleDirectoryDeletion(dirPath, reason, options)`: same shape as
`handleFileDeletion`; the immediate branch calls `deleteDirectory`, whose
non-recursive `rmdirSync` succeeds here because the traversal only reaches it
for a directory it has just found empty. -/
def handleDirectoryDeletion (cfg : Config) (path reason : String) (dryRun : Bool) :
    List Event × Bool :=
  if dryRun then ([.proposal path reason], false)
  else if cfg.options.promptBeforeDeletion then ([.promptRequest path reason], false)
  else ([.deleted path reason], true)

/-- The body of `scanDirectory(dirPath, options)` over the directory's
entries (lines 268–298 of the source): files are classified
essential → build artifact → not recently accessed; subdirectories are
scanned first and then, when `removeEmptyDirectories` is set, non-essential
now-empty ones are handed to `handleDirectoryDeletion`; a `statSync` failure
is caught by the function-level `try/catch`, which logs and returns,
abandoning the remaining entries of this directory. -/
def scanItems (cfg : Config) (now : Int) (dryRun : Bool) :
    String → FSList → List Event × FSList
  | _, .nil => ([], .nil)
  | dirPath, .cons (.statFailure n) rest =>
    ([.errorLog ("Error scanning directory " ++ dirPath)],
      .cons (.statFailure n) rest)
  | dirPath, .cons (.file n atime) rest =>
    let itemPath := joinPath dirPath n
    if isEssentialFile cfg itemPath then
      let r := scanItems cfg now dryRun dirPath rest
      (.skippedEssential itemPath :: r.1, .cons (.file n atime) r.2)
    else if isBuildArtifact cfg itemPath then
      let h := handleFileDeletion cfg itemPath "Build artifact" dryRun
      let r := scanItems cfg now dryRun dirPath rest
      (h.1 ++ r.1, if h.2 then r.2 else .cons (.file n atime) r.2)
    else if ! isRecentlyAccessed cfg now atime then
      let h := handleFileDeletion cfg itemPath "Not recently accessed" dryRun
      let r := scanItems cfg now dryRun dirPath rest
      (h.1 ++ r.1, if h.2 then r.2 else .cons (.file n atime) r.2)
    else
      let r := scanItems cfg now dryRun dirPath rest
      (r.1, .cons (.file n atime) r.2)
  | dirPath, .cons (.dir n cs) rest =>
    let itemPath := joinPath dirPath n
    let sub := scanItems cfg now dryRun itemPath cs
    if cfg.options.removeEmptyDirectories && ! isEssentialDirectory cfg itemPath
        && FSList.isEmpty sub.2 then
      let h := handleDirectoryDeletion cfg itemPath "Empty directory" dryRun
      let r := scanItems cfg now dryRun dirPath rest
      (sub.1 ++ h.1 ++ r.1, if h.2 then r.2 else .cons (.dir n sub.2) r.2)
    else
      let r := scanItems cfg now dryRun dirPath rest
      (sub.1 ++ r.1, .cons (.dir n sub.2) r.2)

/-- `fs.rmdirSync(dirPath)` without the `recursive` option, acting on the
contents of the parent directory: removes the child directory named `name`
only if it exists, is a directory, and is empty; otherwise it throws
(`ENOENT` / `ENOTDIR` / `ENOTEMPTY`). -/
def rmdirSyncNonRecursive : FSList → String → Except String FSList
  | .nil, _ => .error "ENOENT"
  | .cons (.dir n cs) rest, name =>
    if n = name then
      match cs with
      | .nil => .ok rest
      | .cons _ _ => .error "ENOTEMPTY"
    else
      match rmdirSyncNonRecursive rest name with
      | .ok rest2 => .ok (.cons (.dir n cs) rest2)
      | .error e => .error e
  | .cons (.file n a) rest, name =>
    if n = name then .error "ENOTDIR"
    else
      match rmdirSyncNonRecursive rest name with
      | .ok rest2 => .ok (.cons (.file n a) rest2)
      | .error e2 => .error e2
  | .cons (.statFailure n) rest, name =>
    if n = name then .error "EIO"
    else
      match rmdirSyncNonRecursive rest name with
      | .ok rest2 => .ok (.cons (.statFailure n) rest2)
      | .error e2 => .error e2

/-- The name an entry answers to in directory listings. -/
def entryName : FSEntry → String
  | .file n _ => n
  | .dir n _ => n
  | .statFailure n => n

/-- First entry of a directory bearing a given name. -/
def findChild : FSList → String → Option FSEntry
  | .nil, _ => none
  | .cons e rest, name => if entryName e = name then some e else findChild rest name

/-- `deleteDirectory(dirPath, reason)` (lines 322–330 of the source), acting
on the contents of the parent directory: attempt the non-recursive
`rmdirSync`; on success append a deletion log, on failure catch the error and
log it, leaving the filesystem as it was. -/
def deleteDirectory (entries : FSList) (parentPath name reason : String) :
    FSList × List Event :=
  match rmdirSyncNonRecursive entries name with
  | .ok entries2 => (entries2, [.deleted (joinPath parentPath name) reason])
  | .error _ =>
    (entries, [.errorLog ("Error deleting directory " ++ joinPath parentPath name)])

/-! ### `runCleanup` -/

/-- The filesystem state touched by a run: the configured scan roots (the
values of `config.directories`, each with its contents) and the date
partitions under the backup root. -/
structure FS where
  roots : List (String × FSList)
  backups : List String

/-- `runCleanup(options)` (lines 372–405): scan every configured root, then
unconditionally run the backup retention sweep.  The hardcoded
`removeEmptyFrontend` special case only logs in dry-run mode and prompts
otherwise, so it is not represented in the returned state; the terminal
dry-run console message is likewise elided. -/
def runCleanup (cfg : Config) (now : Int) (dryRun : Bool) (fs : FS) :
    List Event × FS :=
  let scans := fs.roots.map (fun root => (root.1, scanItems cfg now dryRun root.1 root.2))
  ((scans.map (fun s => s.2.1)).flatten,
    { roots := scans.map (fun s => (s.1, s.2.2))
      backups := cleanupOldBackups cfg now fs.backups })

/-! ### The structure analyzer's duplicate detector

Shallow embedding of lines 483–500 of the structure-analysis script.  The
traversal is abstracted to the sequence of `(relative path, content)` pairs of
the files it visits, in traversal order (files whose content cannot be read
yield a `null` hash and are skipped by the source, so they simply do not
appear in the sequence).  The SHA-256 content digest is modelled by the
content itself — all that matters to the grouping logic is that byte-identical
contents share a digest and distinct contents (absent collisions) do not. -/

/-- Content digest (see the section comment). -/
def digest (content : String) : String := content

/-- One recorded duplicate group: `{hash, files}`. -/
structure DupGroup where
  hash : String
  files : List String
deriving DecidableEq

/-- The analyzer state relevant to duplicate detection: the `fileHashes`
map (digest ↦ first path seen with it, an insertion-ordered association list)
and the `analysis.potentialDuplicates` array. -/
structure AnalyzerState where
  fileHashes : List (String × String)
  potentialDuplicates : List DupGroup
deriving DecidableEq

/-- Processing of one visited file (lines 484–500): on a repeat digest, push
a `{hash, [firstPath, currentPath]}` group unless some existing group with
this digest already contains both paths; on a first occurrence, record the
path in `fileHashes`. -/
def recordFileHash (st : AnalyzerState) (relPath content : String) : AnalyzerState :=
  let h := digest content
  match st.fileHashes.lookup h with
  | some firstPath =>
    if st.potentialDuplicates.any (fun dup =>
        dup.hash == h && dup.files.contains firstPath && dup.files.contains relPath) then
      st
    else
      { st with potentialDuplicates :=
          st.potentialDuplicates ++ [{ hash := h, files := [firstPath, relPath] }] }
  | none => { st with fileHashes := st.fileHashes ++ [(h, relPath)] }

/-- The empty analyzer state the script starts from. -/
def initialAnalyzerState : AnalyzerState :=
  { fileHashes := [], potentialDuplicates := [] }

/-- One analysis pass over the visited files. -/
def analyzeFiles (files : List (String × String)) : AnalyzerState :=
  files.foldl (fun st pc => recordFileHash st pc.1 pc.2) initialAnalyzerState

/-- The first path among the earlier-visited files `seen` whose content has
digest `h`. -/
def firstPathWith (h : String) : List (String × String) → Option String
  | [] => none
  | pc :: rest => if digest pc.2 = h then some pc.1 else firstPathWith h rest

/-- Reference description of the groups the analyzer records: one group per
repeat occurrence of a digest, pairing the digest's first-seen path with the
current path, in visit order. -/
def dupSpec (seen : List (String × String)) : List (String × String) → List DupGroup
  | [] => []
  | (p, c) :: rest =>
    match firstPathWith (digest c) seen with
    | some fp =>
      { hash := digest c, files := [fp, p] } :: dupSpec (seen ++ [(p, c)]) rest
    | none => dupSpec (seen ++ [(p, c)]) rest

/-! ### Configuration loading (claim C9)

The cleanup script (lines 19–40): a missing file falls back to
`getDefaultConfig()`; any error thrown while reading, JSON-parsing, or
compiling the `essentialPatterns` strings to `RegExp`s is caught and likewise
falls back to the defaults.  The structure analyzer (lines 276–307): a missing
file falls back to its inline defaults, but any error thrown while reading or
parsing reaches `process.exit(1)`.
-/

/-- Possible states of `cleanup-config.json` at load time, as the loaders
distinguish them: missing, readable-but-throwing (unreadable / invalid JSON /
invalid pattern), or successfully parsed to a configuration. -/
inductive ConfigFile (α : Type) where
  | absent : ConfigFile α
  | unparsable : ConfigFile α
  | parsed (cfg : α) : ConfigFile α

/-- The cleanup script's configuration load. -/
def loadCleanupConfig : ConfigFile Config → Config
  | .absent => getDefaultConfig
  | .unparsable => getDefaultConfig
  | .parsed c => c

/-- The slice of the configuration the structure analyzer's inline defaults
provide. -/
structure AnalyzerConfig where
  directories : List (String × String)
  essentialDirectories : List String
deriving DecidableEq

/-- The analyzer's inline default configuration (its lines 288–302). -/
def analyzerDefaultConfig : AnalyzerConfig where
  directories :=
    [("frontend", "src"), ("backend", "backend"), ("database", "database"),
     ("publicAssets", "public")]
  essentialDirectories := ["node_modules", "src", "backend", "public"]

/-- The structure analyzer's configuration load: `Except.error` is the
process exit code of its `catch` branch. -/
def loadAnalyzerConfig : ConfigFile AnalyzerConfig → Except Nat AnalyzerConfig
  | .absent => .ok analyzerDefaultConfig
  | .unparsable => .error 1
  | .parsed c => .ok c

/-- The deletion intent carried by an event, if any: the targeted path and
the reason handed to `handleFileDeletion` / `handleDirectoryDeletion`. -/
def deletionIntent : Event → Option (String × String)
  | .proposal p r => some (p, r)
  | .promptRequest p r => some (p, r)
  | .deleted p r => some (p, r)
  | .skippedEssential _ => none
  | .errorLog _ => none

/-! ### Supporting lemmas -/

/-- In dry-run mode the traversal leaves every directory untouched. -/
theorem scanItems_dryRun_snd (cfg : Config) (now : Int) (dirPath : String)
    (l : FSList) : (scanItems cfg now true dirPath l).2 = l := by
  match l with
  | .nil => rfl
  | .cons (.statFailure n) rest => rfl
  | .cons (.file n atime) rest =>
    have ih := scanItems_dryRun_snd cfg now dirPath rest
    simp only [scanItems]
    split
    · simp [ih]
    · split
      · simp [handleFileDeletion, ih]
      · split
        · simp [handleFileDeletion, ih]
        · simp [ih]
  | .cons (.dir n cs) rest =>
    have ih1 := scanItems_dryRun_snd cfg now (joinPath dirPath n) cs
    have ih2 := scanItems_dryRun_snd cfg now dirPath rest
    simp only [scanItems]
    split
    · simp [handleDirectoryDeletion, ih1, ih2]
    · simp [ih1, ih2]

/-- In dry-run mode the traversal emits no `deleted` event. -/
theorem scanItems_dryRun_no_deleted (cfg : Config) (now : Int) (dirPath : String)
    (l : FSList) : ∀ p r, Event.deleted p r ∉ (scanItems cfg now true dirPath l).1 := by
  match l with
  | .nil => simp [scanItems]
  | .cons (.statFailure n) rest => simp [scanItems]
  | .cons (.file n atime) rest =>
    have ih := scanItems_dryRun_no_deleted cfg now dirPath rest
    intro p r
    simp only [scanItems]
    split
    · simp [ih p r]
    · split
      · simp [handleFileDeletion, ih p r]
      · split
        · simp [handleFileDeletion, ih p r]
        · simp [ih p r]
  | .cons (.dir n cs) rest =>
    have ih1 := scanItems_dryRun_no_deleted cfg now (joinPath dirPath n) cs
    have ih2 := scanItems_dryRun_no_deleted cfg now dirPath rest
    intro p r
    simp only [scanItems]
    split
    · simp [handleDirectoryDeletion, ih1 p r, ih2 p r]
    · simp [ih1 p r, ih2 p r]

/-- Every event of `handleFileDeletion` carries the given path and reason. -/
theorem handleFileDeletion_intent (cfg : Config) (p r : String) (dryRun : Bool) :
    ∀ ev ∈ (handleFileDeletion cfg p r dryRun).1, deletionIntent ev = some (p, r) := by
  simp only [handleFileDeletion]
  split
  · simp [deletionIntent]
  · split <;> simp [deletionIntent]

/-- Every event of `handleDirectoryDeletion` carries the given path and
reason. -/
theorem handleDirectoryDeletion_intent (cfg : Config) (p r : String) (dryRun : Bool) :
    ∀ ev ∈ (handleDirectoryDeletion cfg p r dryRun).1, deletionIntent ev = some (p, r) := by
  simp only [handleDirectoryDeletion]
  split
  · simp [deletionIntent]
  · split <;> simp [deletionIntent]

/-! ### Claim C1 -/

/-- **C1 (amended).**  What the essential checks do protect: a deletion
proposal (dry-run proposal, interactive prompt, or immediate deletion) for a
file reason (`Build artifact`, `Not recently accessed`) only ever targets a
path whose basename matches no essential pattern, and an `Empty directory`
proposal only ever targets a directory whose own basename is not an essential
directory name.  (Being *inside* an essential directory confers no protection
— see the counterexample — and file patterns do not protect directories.) -/
theorem scan_never_targets_essential (cfg : Config) (now : Int) (dryRun : Bool)
    (dirPath : String) (l : FSList) :
    ∀ ev ∈ (scanItems cfg now dryRun dirPath l).1, ∀ p r,
      deletionIntent ev = some (p, r) →
      ((r = "Build artifact" ∨ r = "Not recently accessed")
          ∧ isEssentialFile cfg p = false)
        ∨ (r = "Empty directory" ∧ isEssentialDirectory cfg p = false) := by
  match l with
  | .nil => simp [scanItems]
  | .cons (.statFailure n) rest =>
    intro ev hev p r hint
    simp only [scanItems, List.mem_singleton] at hev
    subst hev
    simp [deletionIntent] at hint
  | .cons (.file n atime) rest =>
    have ih := scan_never_targets_essential cfg now dryRun dirPath rest
    intro ev hev p r hint
    revert hev
    simp only [scanItems]
    split
    · next hE =>
      intro hev
      rcases List.mem_cons.mp hev with hev | hev
      · subst hev; simp [deletionIntent] at hint
      · exact ih ev hev p r hint
    · next hE =>
      split
      · next hB =>
        intro hev
        rcases List.mem_append.mp hev with hev | hev
        · have := handleFileDeletion_intent cfg (joinPath dirPath n) "Build artifact"
            dryRun ev hev
          rw [this] at hint
          obtain ⟨hp, hr⟩ := Prod.mk.injEq .. ▸ Option.some.inj hint
          subst hp; subst hr
          exact Or.inl ⟨Or.inl rfl, by simpa using hE⟩
        · exact ih ev hev p r hint
      · next hB =>
        split
        · next hS =>
          intro hev
          rcases List.mem_append.mp hev with hev | hev
          · have := handleFileDeletion_intent cfg (joinPath dirPath n)
              "Not recently accessed" dryRun ev hev
            rw [this] at hint
            obtain ⟨hp, hr⟩ := Prod.mk.injEq .. ▸ Option.some.inj hint
            subst hp; subst hr
            exact Or.inl ⟨Or.inr rfl, by simpa using hE⟩
          · exact ih ev hev p r hint
        · next hS =>
          intro hev
          exact ih ev hev p r hint
  | .cons (.dir n cs) rest =>
    have ih1 := scan_never_targets_essential cfg now dryRun (joinPath dirPath n) cs
    have ih2 := scan_never_targets_essential cfg now dryRun dirPath rest
    intro ev hev p r hint
    revert hev
    simp only [scanItems]
    split
    · next hG =>
      intro hev
      rcases List.mem_append.mp hev with hev | hev
      · rcases List.mem_append.mp hev with hev | hev
        · exact ih1 ev hev p r hint
        · have := handleDirectoryDeletion_intent cfg (joinPath dirPath n)
            "Empty directory" dryRun ev hev
          rw [this] at hint
          obtain ⟨hp, hr⟩ := Prod.mk.injEq .. ▸ Option.some.inj hint
          subst hp; subst hr
          have hness : isEssentialDirectory cfg (joinPath dirPath n) = false := by
            have h1 := (Bool.and_eq_true ..).mp hG
            have h2 := (Bool.and_eq_true ..).mp h1.1
            simpa using h2.2
          exact Or.inr ⟨rfl, hness⟩
      · exact ih2 ev hev p r hint
    · next hG =>
      intro hev
      rcases List.mem_append.mp hev with hev | hev
      · exact ih1 ev hev p r hint
      · exact ih2 ev hev p r hint

/-- **C1 (counterexample).**  A path lying inside an essential-named
directory is not protected: scanning `backend` containing the essential
directory `node_modules` with a `debug.log` inside it emits a deletion
proposal for `backend/node_modules/debug.log`. -/
theorem scan_proposes_inside_essential_dir :
    isEssentialDirectory getDefaultConfig "backend/node_modules" = true ∧
    Event.proposal "backend/node_modules/debug.log" "Build artifact"
      ∈ (scanItems getDefaultConfig 0 true "backend"
          (.cons (.dir "node_modules" (.cons (.file "debug.log" 0) .nil)) .nil)).1 := by
  decide

/-- **C1 (witness).**  The amended theorem applied to a concrete scan: the
proposal emitted for `src/node_modules/debug.log` targets a basename matching
no essential pattern. -/
theorem scan_never_targets_essential_witness :
    isEssentialFile getDefaultConfig "src/node_modules/debug.log" = false := by
  have h := scan_never_targets_essential getDefaultConfig 0 true "src"
    (.cons (.dir "node_modules" (.cons (.file "debug.log" 0) .nil)) .nil)
    (Event.proposal "src/node_modules/debug.log" "Build artifact") (by decide)
    "src/node_modules/debug.log" "Build artifact" rfl
  rcases h with ⟨_, hf⟩ | ⟨hr, _⟩
  · exact hf
  · exact absurd hr (by decide)

/-! ### Claim C2 -/

/-- **C2 (amended).**  In dry-run mode the scan mutates nothing under the
scanned roots and emits no deletion event — but the backup retention sweep is
still executed unconditionally, so the backup partitions end up swept exactly
as in delete mode. -/
theorem runCleanup_dryRun_frame (cfg : Config) (now : Int) (fs : FS) :
    (runCleanup cfg now true fs).2.roots = fs.roots
    ∧ (runCleanup cfg now true fs).2.backups = cleanupOldBackups cfg now fs.backups
    ∧ ∀ p r, Event.deleted p r ∉ (runCleanup cfg now true fs).1 := by
  refine ⟨?_, rfl, ?_⟩
  · simp only [runCleanup, List.map_map]
    have : ∀ roots : List (String × FSList),
        roots.map ((fun s => (s.1, s.2.2)) ∘
          (fun root => (root.1, scanItems cfg now true root.1 root.2))) = roots := by
      intro roots
      induction roots with
      | nil => rfl
      | cons head tail ih => simp [scanItems_dryRun_snd, ih]
    exact this fs.roots
  · intro p r hmem
    simp only [runCleanup, List.mem_flatten, List.mem_map] at hmem
    obtain ⟨evs, ⟨s, ⟨root, _, hs⟩, hevs⟩, hin⟩ := hmem
    subst hs; subst hevs
    exact scanItems_dryRun_no_deleted cfg now root.1 root.2 p r hin

/-- **C2 (counterexample).**  A dry run is not mutation-free: with a backup
partition 19 days old and a 14-day retention window, `runCleanup` in dry-run
mode still removes the partition (the retention sweep runs unconditionally). -/
theorem runCleanup_dryRun_sweeps_backups :
    (runCleanup getDefaultConfig (19742 * 86400000) true
        { roots := [("src", FSList.nil)], backups := ["2024-01-01"] }).2.backups = []
    ∧ (["2024-01-01"] : List String) ≠ [] := by
  refine ⟨?_, by decide⟩
  have hparse : parseDateMs "2024-01-01" = some 1704067200000 := by decide
  have hrm : shouldRemoveBackup getDefaultConfig 1705708800000 "2024-01-01" = true := by
    simp only [shouldRemoveBackup, hparse]
    norm_num [msPerDay, getDefaultConfig]
  have hcb : getDefaultConfig.options.createBackups = true := rfl
  simp [runCleanup, cleanupOldBackups, hcb, hrm]

/-! ### Claim C3 -/

/-- **C3 (amended).**  `scanDirectory`'s `try/catch` wraps the whole
directory body, not one entry: a `statSync` failure on an entry is logged and
abandons the *remaining entries of that directory* (its already-processed
siblings and the filesystem state are untouched).  The failure is still
contained in that invocation: a failure inside a subdirectory's scan does not
abort the traversal of the entries following the subdirectory, so no single
bad entry aborts the whole run. -/
theorem scan_statFailure_containment (cfg : Config) (now : Int) (dryRun : Bool)
    (dirPath : String) :
    (∀ n rest,
        scanItems cfg now dryRun dirPath (.cons (.statFailure n) rest)
          = ([.errorLog ("Error scanning directory " ++ dirPath)],
              .cons (.statFailure n) rest))
    ∧ (∀ n cs rest, ∃ mid,
        (scanItems cfg now dryRun dirPath (.cons (.dir n cs) rest)).1
          = (scanItems cfg now dryRun (joinPath dirPath n) cs).1 ++ mid
              ++ (scanItems cfg now dryRun dirPath rest).1) := by
  constructor
  · intro n rest; rfl
  · intro n cs rest
    simp only [scanItems]
    split
    · exact ⟨(handleDirectoryDeletion cfg (joinPath dirPath n) "Empty directory" dryRun).1,
        by simp⟩
    · exact ⟨[], by simp⟩

/-- **C3 (counterexample).**  A stat failure does not merely skip the failing
entry: with entries `[bad, debug.log]`, where statting `bad` throws, the scan
of the directory stops at the error — the sibling `debug.log`, which alone
would be proposed for deletion, is never examined. -/
theorem scan_statFailure_skips_siblings :
    (scanItems getDefaultConfig 0 true "src"
        (.cons (.statFailure "bad") (.cons (.file "debug.log" 0) .nil))).1
      = [Event.errorLog "Error scanning directory src"]
    ∧ (scanItems getDefaultConfig 0 true "src"
        (.cons (.file "debug.log" 0) .nil)).1
      = [Event.proposal "src/debug.log" "Build artifact"] := by
  decide

/-! ### Claim C4 -/

/-- **C4.**  With a 30-day threshold and `.log` in the artifact set, a
`debug.log` matching no essential pattern and last accessed 40 days ago is
proposed with reason `Build artifact` (and only that): the artifact check is
evaluated before — and wins over — the staleness check, even though the file
is indeed not recently accessed. -/
theorem artifact_wins_over_staleness (cfg : Config) (now atime : Int)
    (hthr : cfg.accessThresholdDays = 30)
    (hlog : cfg.artifactExtensions.contains ".log" = true)
    (hess : isEssentialFile cfg "src/debug.log" = false)
    (hage : ((now - atime : ℚ) / msPerDay) = 40) :
    (scanItems cfg now true "src" (.cons (.file "debug.log" atime) .nil)).1
      = [Event.proposal "src/debug.log" "Build artifact"]
    ∧ isRecentlyAccessed cfg now atime = false := by
  have hart : isBuildArtifact cfg "src/debug.log" = true := by
    have hext : toLowerAscii (extname "src/debug.log") = ".log" := by decide
    simp only [isBuildArtifact, hext]
    exact hlog
  constructor
  · simp [scanItems, joinPath, hess, hart, handleFileDeletion]
  · simp only [isRecentlyAccessed, hage, hthr]
    norm_num

/-- **C4 (witness).**  The scenario at concrete times: `now` 40 days after
the last access of `debug.log`, default configuration. -/
theorem artifact_wins_over_staleness_witness :
    (scanItems getDefaultConfig (40 * 86400000) true "src"
        (.cons (.file "debug.log" 0) .nil)).1
      = [Event.proposal "src/debug.log" "Build artifact"]
    ∧ isRecentlyAccessed getDefaultConfig (40 * 86400000) 0 = false :=
  artifact_wins_over_staleness getDefaultConfig (40 * 86400000) 0 rfl (by decide)
    (by decide) (by norm_num [msPerDay])

/-! ### Claim C5 -/

/-- **C5 (amended).**  For a non-essential, non-artifact file the
`Not recently accessed` proposal is emitted iff the age in days is **at
least** the threshold (the source computes `daysDifference <
accessThresholdDays` for "recently accessed", so the boundary case is
stale), not iff it strictly exceeds it. -/
theorem stale_proposal_iff_ge_threshold (cfg : Config) (now atime : Int)
    (dirPath nm : String)
    (hess : isEssentialFile cfg (joinPath dirPath nm) = false)
    (hart : isBuildArtifact cfg (joinPath dirPath nm) = false) :
    (scanItems cfg now true dirPath (.cons (.file nm atime) .nil)).1
        = [Event.proposal (joinPath dirPath nm) "Not recently accessed"]
      ↔ cfg.accessThresholdDays ≤ ((now - atime : ℚ) / msPerDay) := by
  by_cases hrec : ((now - atime : ℚ) / msPerDay) < cfg.accessThresholdDays
  · have hb : isRecentlyAccessed cfg now atime = true := by
      simp [isRecentlyAccessed, hrec]
    have hscan : (scanItems cfg now true dirPath (.cons (.file nm atime) .nil)).1
        = [] := by
      simp [scanItems, hess, hart, hb]
    rw [hscan]
    exact iff_of_false (by simp) (not_le.mpr hrec)
  · have hb : isRecentlyAccessed cfg now atime = false := by
      simp [isRecentlyAccessed, hrec]
    have hscan : (scanItems cfg now true dirPath (.cons (.file nm atime) .nil)).1
        = [Event.proposal (joinPath dirPath nm) "Not recently accessed"] := by
      simp [scanItems, hess, hart, hb, handleFileDeletion]
    rw [hscan]
    exact iff_of_true rfl (le_of_not_lt hrec)

/-- **C5 (witness).**  The amended criterion at a concrete input one day
past the threshold: a 31-day-old ordinary file is proposed as stale. -/
theorem stale_proposal_iff_ge_threshold_witness :
    (scanItems getDefaultConfig (31 * 86400000) true "src"
        (.cons (.file "notes.txt" 0) .nil)).1
      = [Event.proposal (joinPath "src" "notes.txt") "Not recently accessed"] :=
  (stale_proposal_iff_ge_threshold getDefaultConfig (31 * 86400000) 0 "src" "notes.txt"
    (by decide) (by decide)).mpr (by norm_num [msPerDay, getDefaultConfig])

/-- **C5 (counterexample).**  A file whose age **equals** the threshold
exactly (30 days, threshold 30) *is* proposed for deletion as
`Not recently accessed`, contrary to the claimed strict inequality. -/
theorem stale_proposal_at_exact_threshold :
    ((30 * 86400000 : Int) - 0 : ℚ) / msPerDay = getDefaultConfig.accessThresholdDays
    ∧ (scanItems getDefaultConfig (30 * 86400000) true "src"
        (.cons (.file "notes.txt" 0) .nil)).1
      = [Event.proposal "src/notes.txt" "Not recently accessed"] := by
  constructor
  · norm_num [msPerDay, getDefaultConfig]
  · have hrec : isRecentlyAccessed getDefaultConfig 2592000000 0 = false := by
      norm_num [isRecentlyAccessed, msPerDay, getDefaultConfig]
    have hess : isEssentialFile getDefaultConfig "src/notes.txt" = false := by decide
    have hart : isBuildArtifact getDefaultConfig "src/notes.txt" = false := by decide
    simp [scanItems, joinPath, hess, hart, hrec, handleFileDeletion]

/-! ### Claim C6 -/

/-- A first-seen path returned by `firstPathWith` belongs to the seen files. -/
theorem firstPathWith_mem (h : String) (seen : List (String × String)) (fp : String)
    (hfp : firstPathWith h seen = some fp) : fp ∈ seen.map Prod.fst := by
  induction seen with
  | nil => simp [firstPathWith] at hfp
  | cons pc rest ih =>
    by_cases hd : digest pc.2 = h
    · simp only [firstPathWith, if_pos hd] at hfp
      rw [← Option.some.inj hfp]
      simp
    · simp only [firstPathWith, if_neg hd] at hfp
      simp [ih hfp]

/-- Appending one file to the seen list only affects the digest it carries. -/
theorem firstPathWith_append (h : String) (seen : List (String × String))
    (p c : String) :
    firstPathWith h (seen ++ [(p, c)])
      = match firstPathWith h seen with
        | some fp => some fp
        | none => if digest c = h then some p else none := by
  induction seen with
  | nil => simp [firstPathWith]
  | cons e rest ih =>
    by_cases hd : digest e.2 = h
    · simp [firstPathWith, hd]
    · simp only [List.cons_append, firstPathWith, if_neg hd]
      exact ih

/-- Appending one binding to an association list only affects its key. -/
theorem lookup_append_one (m : List (String × String)) (k v h : String) :
    (m ++ [(k, v)]).lookup h
      = match m.lookup h with
        | some x => some x
        | none => if h = k then some v else none := by
  induction m with
  | nil =>
    by_cases hk : h = k
    · simp [List.lookup, hk]
    · simp [List.lookup, beq_eq_false_iff_ne.mpr hk, hk]
  | cons e m ih =>
    obtain ⟨k1, v1⟩ := e
    by_cases h1 : h = k1
    · simp [List.lookup, h1]
    · simp only [List.cons_append, List.lookup, beq_eq_false_iff_ne.mpr h1]
      exact ih

/-- Invariant argument for the duplicate detector: starting from a state
whose `fileHashes` agree with the first-seen paths of `seen` and whose
recorded groups mention only paths of `seen`, processing files with fresh
pairwise-distinct paths appends exactly the reference groups
`dupSpec seen l`. -/
theorem analyzeFiles_go (l : List (String × String)) :
    ∀ (seen : List (String × String)) (st : AnalyzerState),
      (∀ h, st.fileHashes.lookup h = firstPathWith h seen) →
      (∀ g ∈ st.potentialDuplicates, ∀ q ∈ g.files, q ∈ seen.map Prod.fst) →
      (((seen ++ l).map Prod.fst).Nodup) →
      (l.foldl (fun s pc => recordFileHash s pc.1 pc.2) st).potentialDuplicates
        = st.potentialDuplicates ++ dupSpec seen l := by
  induction l with
  | nil =>
    intro seen st _ _ _
    simp [dupSpec]
  | cons pc rest ih =>
    obtain ⟨p, c⟩ := pc
    intro seen st hlook hpaths hnodup
    have hpfresh : p ∉ seen.map Prod.fst := by
      simp only [List.map_append, List.map_cons] at hnodup
      have hd := (List.nodup_append.mp hnodup).2.2
      exact fun hp => hd hp (List.mem_cons_self _ _)
    have hnodup2 : (((seen ++ [(p, c)]) ++ rest).map Prod.fst).Nodup := by
      simpa [List.append_assoc] using hnodup
    simp only [List.foldl_cons]
    cases hfp : firstPathWith (digest c) seen with
    | some fp =>
      have hl : st.fileHashes.lookup (digest c) = some fp := by
        rw [hlook]; exact hfp
      have hany : (st.potentialDuplicates.any (fun dup =>
          dup.hash == digest c && dup.files.contains fp
            && dup.files.contains p)) = false := by
        rw [List.any_eq_false]
        intro d hd
        have hnpm : p ∉ d.files := fun hp => absurd (hpaths d hd p hp) hpfresh
        simp [hnpm]
      have hrec : recordFileHash st p c
          = { st with potentialDuplicates := st.potentialDuplicates
              ++ [{ hash := digest c, files := [fp, p] }] } := by
        simp only [recordFileHash, hl, hany, Bool.false_eq_true, if_false]
      rw [hrec]
      rw [ih (seen ++ [(p, c)]) _ ?_ ?_ hnodup2]
      · simp [dupSpec, hfp]
      · intro h
        show st.fileHashes.lookup h = _
        rw [firstPathWith_append, hlook h]
        cases hsome : firstPathWith h seen with
        | some s => simp
        | none =>
          by_cases hdc : digest c = h
          · rw [hdc] at hfp
            rw [hfp] at hsome
            exact absurd hsome (by simp)
          · simp [hdc]
      · intro g hg q hq
        simp only [List.mem_append] at hg
        simp only [List.map_append, List.map_cons, List.map_nil, List.mem_append]
        rcases hg with hg | hg
        · exact Or.inl (hpaths g hg q hq)
        · have hgeq : g = { hash := digest c, files := [fp, p] } := by
            simpa using hg
          subst hgeq
          simp only [List.mem_cons, List.mem_singleton] at hq
          rcases hq with hq | hq | hq
          · subst hq
            exact Or.inl (firstPathWith_mem (digest c) seen q hfp)
          · subst hq
            simp
          · cases hq
    | none =>
      have hl : st.fileHashes.lookup (digest c) = none := by
        rw [hlook]; exact hfp
      have hrec : recordFileHash st p c
          = { st with fileHashes := st.fileHashes ++ [(digest c, p)] } := by
        simp [recordFileHash, hl]
      rw [hrec]
      rw [ih (seen ++ [(p, c)]) _ ?_ ?_ hnodup2]
      · simp [dupSpec, hfp]
      · intro h
        show (st.fileHashes ++ [(digest c, p)]).lookup h = _
        rw [lookup_append_one, firstPathWith_append, hlook h]
        cases hsome : firstPathWith h seen with
        | some s => simp
        | none =>
          by_cases hdc : digest c = h
          · simp [hdc]
          · have hdc2 : ¬ h = digest c := fun e => hdc e.symm
            simp [hdc, hdc2]
      · intro g hg q hq
        simp only [List.map_append, List.map_cons, List.map_nil, List.mem_append]
        exact Or.inl (hpaths g hg q hq)

/-- **C6 (amended).**  Over distinct paths, the analyzer records one group
per *repeat occurrence* of a digest, pairing the digest's first-seen path
with the current path (never the same pair twice).  Two byte-identical files
therefore land in a single group exactly once, in any traversal order — but
three or more identical files produce several groups sharing the digest
instead of merging into one. -/
theorem analyzer_duplicates_characterization (files : List (String × String))
    (hnodup : (files.map Prod.fst).Nodup) :
    (analyzeFiles files).potentialDuplicates = dupSpec [] files := by
  have h := analyzeFiles_go files [] initialAnalyzerState
    (fun h => by simp [initialAnalyzerState, firstPathWith, List.lookup])
    (by simp [initialAnalyzerState])
    (by simpa using hnodup)
  simpa [initialAnalyzerState, analyzeFiles] using h

/-- **C6 (witness).**  The characterization applied to two identical files:
a single group `{digest, [a, b]}`, and only that, is recorded. -/
theorem analyzer_duplicates_characterization_witness :
    (analyzeFiles [("a", "x"), ("b", "x")]).potentialDuplicates
      = dupSpec [] [("a", "x"), ("b", "x")]
    ∧ dupSpec [] [("a", "x"), ("b", "x")]
      = [{ hash := "x", files := ["a", "b"] }] :=
  ⟨analyzer_duplicates_characterization [("a", "x"), ("b", "x")] (by decide),
    by decide⟩

/-- **C6 (counterexample).**  Three byte-identical files `a`, `b`, `c` are
*not* reported in a single group for their digest: the analyzer records two
separate group entries with the same digest (`[a, b]` and `[a, c]`), because
a repeat digest always pushes a fresh pair instead of merging. -/
theorem analyzer_duplicates_not_merged :
    (analyzeFiles [("a", "x"), ("b", "x"), ("c", "x")]).potentialDuplicates
      = [{ hash := "x", files := ["a", "b"] }, { hash := "x", files := ["a", "c"] }] := by
  decide

/-! ### Claim C7 -/

/-- `Char.ofNat` at a code below the surrogate range decodes back to the same
code. -/
theorem char_toNat_ofNat_of_lt (n : Nat) (h : n < 55296) :
    (Char.ofNat n).toNat = n := by
  rw [Char.ofNat, dif_pos (Or.inl h)]
  rfl

/-- `Char.toLower` never yields an ASCII uppercase letter. -/
theorem char_toLower_not_upper (c : Char) :
    ¬ (65 ≤ (Char.toLower c).toNat ∧ (Char.toLower c).toNat ≤ 90) := by
  have hdef : Char.toLower c
      = if c.toNat ≥ 65 ∧ c.toNat ≤ 90 then Char.ofNat (c.toNat + 32) else c := rfl
  rw [hdef]
  split
  · next h =>
    rw [char_toNat_ofNat_of_lt (c.toNat + 32) (by omega)]
    omega
  · next h =>
    intro hc
    exact h ⟨hc.1, hc.2⟩

/-- The output of `toLowerAscii` contains no ASCII uppercase letter. -/
theorem toLowerAscii_no_upper (s : String) (c : Char)
    (hc : c ∈ (toLowerAscii s).toList) :
    ¬ (65 ≤ c.toNat ∧ c.toNat ≤ 90) := by
  have hlist : (toLowerAscii s).toList = s.toList.map Char.toLower := rfl
  rw [hlist] at hc
  obtain ⟨d, _, hd⟩ := List.mem_map.mp hc
  rw [← hd]
  exact char_toLower_not_upper d

/-- **C7 (amended).**  The artifact classification holds iff the *lowercased*
file extension is **verbatim** a member of the configured set: all-lowercase
entries such as `.log` therefore match files in any letter case, but a
configured entry containing an ASCII uppercase letter (`.DS_Store`,
`Thumbs.db`) can never match any file, because the file's extension is
lowercased before the comparison while the entry is not. -/
theorem artifact_matching_semantics (cfg : Config) (p : String) :
    (isBuildArtifact cfg p = true ↔ toLowerAscii (extname p) ∈ cfg.artifactExtensions)
    ∧ ∀ e ∈ cfg.artifactExtensions,
        (∃ c ∈ e.toList, 65 ≤ c.toNat ∧ c.toNat ≤ 90) →
        toLowerAscii (extname p) ≠ e := by
  constructor
  · simp [isBuildArtifact]
  · intro e _ hup he
    obtain ⟨c, hcmem, hcup⟩ := hup
    rw [← he] at hcmem
    exact toLowerAscii_no_upper (extname p) c hcmem hcup

/-- **C7 (witness).**  The amended theorem applied to the default
configuration's `.DS_Store` entry: no file's lowercased extension ever
equals it. -/
theorem artifact_matching_semantics_witness :
    toLowerAscii (extname "x.DS_Store") ≠ ".DS_Store" :=
  (artifact_matching_semantics getDefaultConfig "x.DS_Store").2 ".DS_Store"
    (by decide) ⟨'D', by decide, by decide⟩

/-- **C7 (counterexample).**  `.DS_Store` is in the default artifact set, and
`x.DS_Store` bears exactly that extension (so a case-insensitive membership
test would match), yet `isBuildArtifact` rejects it. -/
theorem artifact_case_mismatch :
    ".DS_Store" ∈ getDefaultConfig.artifactExtensions
    ∧ extname "x.DS_Store" = ".DS_Store"
    ∧ isBuildArtifact getDefaultConfig "x.DS_Store" = false := by
  decide

/-! ### Claim C8 -/

/-- **C8.**  The retention sweep keeps every partition whose name does not
parse as a date, and removes a date-named partition exactly when its age in
days strictly exceeds `backupRetentionDays` — a partition exactly at the
boundary is retained. -/
theorem backup_sweep_boundary (cfg : Config) (now : Int) (parts : List String)
    (nm : String) (hcb : cfg.options.createBackups = true) :
    (parseDateMs nm = none → nm ∈ parts → nm ∈ cleanupOldBackups cfg now parts)
    ∧ ∀ t, parseDateMs nm = some t →
        (nm ∈ cleanupOldBackups cfg now parts
          ↔ nm ∈ parts ∧ ((now - t : ℚ) / msPerDay) ≤ cfg.backupRetentionDays) := by
  constructor
  · intro hnone hmem
    simp only [cleanupOldBackups, hcb, if_true]
    refine List.mem_filter.mpr ⟨hmem, ?_⟩
    simp [shouldRemoveBackup, hnone]
  · intro t ht
    simp only [cleanupOldBackups, hcb, if_true]
    rw [List.mem_filter]
    constructor
    · rintro ⟨hmem, hkeep⟩
      refine ⟨hmem, ?_⟩
      simp only [shouldRemoveBackup, ht, Bool.not_eq_true', decide_eq_false_iff_not,
        not_lt] at hkeep
      exact hkeep
    · rintro ⟨hmem, hle⟩
      refine ⟨hmem, ?_⟩
      simp only [shouldRemoveBackup, ht, Bool.not_eq_true', decide_eq_false_iff_not,
        not_lt]
      exact hle

/-- **C8 (witness).**  The spec's scenario: partitions `2024-01-01` (19 days
old), `2024-01-20` (0 days old) and a non-date `junk`, retention 14 days,
"now" = 2024-01-20: the first is removed, the other two are kept. -/
theorem backup_sweep_boundary_witness :
    "2024-01-01" ∉ cleanupOldBackups getDefaultConfig 1705708800000
        ["2024-01-01", "2024-01-20", "junk"]
    ∧ "2024-01-20" ∈ cleanupOldBackups getDefaultConfig 1705708800000
        ["2024-01-01", "2024-01-20", "junk"]
    ∧ "junk" ∈ cleanupOldBackups getDefaultConfig 1705708800000
        ["2024-01-01", "2024-01-20", "junk"] := by
  refine ⟨?_, ?_, ?_⟩
  · intro hmem
    have h := ((backup_sweep_boundary getDefaultConfig 1705708800000
        ["2024-01-01", "2024-01-20", "junk"] "2024-01-01" rfl).2
        1704067200000 (by decide)).mp hmem
    have h2 := h.2
    norm_num [msPerDay, getDefaultConfig] at h2
  · exact ((backup_sweep_boundary getDefaultConfig 1705708800000
        ["2024-01-01", "2024-01-20", "junk"] "2024-01-20" rfl).2
        1705708800000 (by decide)).mpr
      ⟨by decide, by norm_num [msPerDay, getDefaultConfig]⟩
  · exact (backup_sweep_boundary getDefaultConfig 1705708800000
        ["2024-01-01", "2024-01-20", "junk"] "junk" rfl).1 (by decide) (by decide)

/-! ### Claim C9 -/

/-- **C9 (amended).**  The cleanup script substitutes the built-in defaults
whether the configuration file is absent or throws while being loaded; the
structure analyzer substitutes its inline defaults only when the file is
absent (and uses a parsed file when it succeeds). -/
theorem configLoad_fallback :
    loadCleanupConfig .absent = getDefaultConfig
    ∧ loadCleanupConfig .unparsable = getDefaultConfig
    ∧ loadAnalyzerConfig .absent = .ok analyzerDefaultConfig
    ∧ ∀ c, loadAnalyzerConfig (.parsed c) = .ok c :=
  ⟨rfl, rfl, rfl, fun _ => rfl⟩

/-- **C9 (counterexample).**  An unparsable configuration is fatal for the
structure analyzer — it exits with status 1 — even though its built-in
default configuration is available (it is used for an absent file). -/
theorem analyzer_config_unparsable_fatal :
    loadAnalyzerConfig .unparsable = .error 1 ∧ (1 : Nat) ≠ 0
    ∧ loadAnalyzerConfig .absent = .ok analyzerDefaultConfig :=
  ⟨rfl, by decide, rfl⟩

/-! ### Claim C10 -/

/-- A directory that is non-empty when the delete executes defeats the
non-recursive `rmdirSync`. -/
theorem rmdirSync_nonempty_error (entries : FSList) (nm : String) (cs : FSList)
    (hfind : findChild entries nm = some (.dir nm cs)) (hne : cs ≠ .nil) :
    rmdirSyncNonRecursive entries nm = .error "ENOTEMPTY" := by
  match entries with
  | .nil => simp [findChild] at hfind
  | .cons (.dir m cs2) rest =>
    by_cases hm : m = nm
    · subst hm
      simp only [findChild, entryName, if_pos rfl] at hfind
      have h2 := Option.some.inj hfind
      have hne2 : cs2 ≠ .nil := by
        intro hnil
        subst hnil
        injection h2 with _ h3
        exact hne h3.symm
      simp only [rmdirSyncNonRecursive, if_pos rfl]
      cases cs2 with
      | nil => exact absurd rfl hne2
      | cons e cs3 => rfl
    · simp only [findChild, entryName, if_neg hm] at hfind
      have ih := rmdirSync_nonempty_error rest nm cs hfind hne
      simp [rmdirSyncNonRecursive, hm, ih]
  | .cons (.file m a) rest =>
    by_cases hm : m = nm
    · subst hm
      simp only [findChild, entryName, if_pos rfl] at hfind
      exact absurd (Option.some.inj hfind) (fun h => FSEntry.noConfusion h)
    · simp only [findChild, entryName, if_neg hm] at hfind
      have ih := rmdirSync_nonempty_error rest nm cs hfind hne
      simp [rmdirSyncNonRecursive, hm, ih]
  | .cons (.statFailure m) rest =>
    by_cases hm : m = nm
    · subst hm
      simp only [findChild, entryName, if_pos rfl] at hfind
      exact absurd (Option.some.inj hfind) (fun h => FSEntry.noConfusion h)
    · simp only [findChild, entryName, if_neg hm] at hfind
      have ih := rmdirSync_nonempty_error rest nm cs hfind hne
      simp [rmdirSyncNonRecursive, hm, ih]

/-- **C10.**  The empty-directory deletion path cannot destroy contents: for
a directory that is non-empty at the moment `deleteDirectory` runs (e.g.
entries appeared after the emptiness check or during the prompt), the
non-recursive `rmdirSync` fails, the error is caught and logged, and the
parent's contents — including everything inside the directory — are exactly
what they were. -/
theorem deleteDirectory_nonempty_noop (entries : FSList)
    (parentPath nm reason : String) (cs : FSList)
    (hfind : findChild entries nm = some (.dir nm cs)) (hne : cs ≠ .nil) :
    deleteDirectory entries parentPath nm reason
      = (entries,
          [.errorLog ("Error deleting directory " ++ joinPath parentPath nm)]) := by
  simp [deleteDirectory, rmdirSync_nonempty_error entries nm cs hfind hne]

/-- **C10 (witness).**  A concrete non-empty directory `src/build`: the
delete attempt leaves the tree unchanged and logs the caught error. -/
theorem deleteDirectory_nonempty_noop_witness :
    deleteDirectory (.cons (.dir "build" (.cons (.file "a.txt" 0) .nil)) .nil)
        "src" "build" "Empty directory"
      = (.cons (.dir "build" (.cons (.file "a.txt" 0) .nil)) .nil,
          [.errorLog "Error deleting directory src/build"]) :=
  deleteDirectory_nonempty_noop
    (.cons (.dir "build" (.cons (.file "a.txt" 0) .nil)) .nil)
    "src" "build" "Empty directory" (.cons (.file "a.txt" 0) .nil) rfl
    (fun h => FSList.noConfusion h)

end Cleanup
